import Mathlib

set_option maxHeartbeats 1000000
set_option maxRecDepth 40000

/-!
Shallow embedding of the decision-tree quantization and equivalence pipeline:
the comparison pass and classifier generation of
`decision_trees/dataset_tester.py`, and the EMG dataset loader of
`decision_trees/datasets/emg_raw.py`.  Numeric data is modelled with exact
rationals, fallible operations with `Option`/`Except`.
-/

/-- Minimum of a list of rationals; `none` on the empty list (models `np.amin`,
which raises on an empty slice). -/
def aminQ : List ℚ → Option ℚ
  | [] => none
  | x :: xs =>
    match aminQ xs with
    | none => some x
    | some m => some (min x m)

/-- Maximum of a list of rationals; `none` on the empty list (models `np.amax`). -/
def amaxQ : List ℚ → Option ℚ
  | [] => none
  | x :: xs =>
    match amaxQ xs with
    | none => some x
    | some m => some (max x m)

lemma aminQ_ne_none {x : ℚ} {xs : List ℚ} : aminQ (x :: xs) ≠ none := by
  cases hxs : aminQ xs <;> simp [aminQ, hxs]

lemma amaxQ_ne_none {x : ℚ} {xs : List ℚ} : amaxQ (x :: xs) ≠ none := by
  cases hxs : amaxQ xs <;> simp [amaxQ, hxs]

lemma aminQ_le {l : List ℚ} {m : ℚ} (h : aminQ l = some m) : ∀ x ∈ l, m ≤ x := by
  induction l generalizing m with
  | nil => simp [aminQ] at h
  | cons a as ih =>
    intro x hx
    cases has : aminQ as with
    | none =>
      have hnil : as = [] := by
        cases as with
        | nil => rfl
        | cons b bs => exact absurd has aminQ_ne_none
      subst hnil
      simp [aminQ] at h
      subst h
      simp at hx
      simp [hx]
    | some k =>
      simp [aminQ, has] at h
      subst h
      rcases List.mem_cons.mp hx with rfl | hx'
      · exact min_le_left _ _
      · exact le_trans (min_le_right _ _) (ih has x hx')

lemma le_amaxQ {l : List ℚ} {m : ℚ} (h : amaxQ l = some m) : ∀ x ∈ l, x ≤ m := by
  induction l generalizing m with
  | nil => simp [amaxQ] at h
  | cons a as ih =>
    intro x hx
    cases has : amaxQ as with
    | none =>
      have hnil : as = [] := by
        cases as with
        | nil => rfl
        | cons b bs => exact absurd has amaxQ_ne_none
      subst hnil
      simp [amaxQ] at h
      subst h
      simp at hx
      simp [hx]
    | some k =>
      simp [amaxQ, has] at h
      subst h
      rcases List.mem_cons.mp hx with rfl | hx'
      · exact le_max_left _ _
      · exact le_trans (ih has x hx') (le_max_right _ _)

lemma aminQ_append {a b : List ℚ} {m n : ℚ}
    (ha : aminQ a = some m) (hb : aminQ b = some n) :
    aminQ (a ++ b) = some (min m n) := by
  induction a generalizing m with
  | nil => simp [aminQ] at ha
  | cons x xs ih =>
    cases hxs : aminQ xs with
    | none =>
      have hnil : xs = [] := by
        cases xs with
        | nil => rfl
        | cons y ys => exact absurd hxs aminQ_ne_none
      subst hnil
      simp [aminQ] at ha
      subst ha
      simp [aminQ, hb]
    | some k =>
      simp [aminQ, hxs] at ha
      subst ha
      have hrec := ih hxs
      show aminQ (x :: (xs ++ b)) = _
      simp [aminQ, hrec, min_assoc]

lemma amaxQ_append {a b : List ℚ} {m n : ℚ}
    (ha : amaxQ a = some m) (hb : amaxQ b = some n) :
    amaxQ (a ++ b) = some (max m n) := by
  induction a generalizing m with
  | nil => simp [amaxQ] at ha
  | cons x xs ih =>
    cases hxs : amaxQ xs with
    | none =>
      have hnil : xs = [] := by
        cases xs with
        | nil => rfl
        | cons y ys => exact absurd hxs amaxQ_ne_none
      subst hnil
      simp [amaxQ] at ha
      subst ha
      simp [amaxQ, hb]
    | some k =>
      simp [amaxQ, hxs] at ha
      subst ha
      have hrec := ih hxs
      show amaxQ (x :: (xs ++ b)) = _
      simp [amaxQ, hrec, max_assoc]

lemma get?_eq_some_getD {α : Type} (l : List α) (j : Nat) (d : α) (h : j < l.length) :
    l.get? j = some (l.getD j d) := by
  cases hq : l.get? j with
  | none =>
    rw [List.get?_eq_none] at hq
    omega
  | some v =>
    have hv : l.getD j d = v := by
      rw [List.getD_eq_getElem?_getD]
      rw [List.get?_eq_getElem?] at hq
      simp [hq]
    rw [hv]

/-! ### EMGRaw (`decision_trees/datasets/emg_raw.py`)

Feature matrices are lists of rows of rationals.  The first eight columns of a
row are the RMS group (`data[:, :8]`), the remaining columns the
zero-crossings group (`data[:, 8:]`). -/

/-- All entries of the RMS slice `data[:, :8]` of a matrix. -/
def rmsEntries : List (List ℚ) → List ℚ
  | [] => []
  | r :: rs => r.take 8 ++ rmsEntries rs

/-- All entries of the zero-crossings slice `data[:, 8:]` of a matrix. -/
def zcEntries : List (List ℚ) → List ℚ
  | [] => []
  | r :: rs => r.drop 8 ++ zcEntries rs

lemma rmsEntries_append (a b : List (List ℚ)) :
    rmsEntries (a ++ b) = rmsEntries a ++ rmsEntries b := by
  induction a with
  | nil => simp [rmsEntries]
  | cons r rs ih => simp [rmsEntries, ih]

lemma zcEntries_append (a b : List (List ℚ)) :
    zcEntries (a ++ b) = zcEntries a ++ zcEntries b := by
  induction a with
  | nil => simp [zcEntries]
  | cons r rs ih => simp [zcEntries, ih]

lemma mem_rmsEntries {rows : List (List ℚ)} {row : List ℚ} {w : ℚ}
    (hrow : row ∈ rows) (hw : w ∈ row.take 8) : w ∈ rmsEntries rows := by
  induction rows with
  | nil => simp at hrow
  | cons r rs ih =>
    rcases List.mem_cons.mp hrow with rfl | h'
    · exact List.mem_append.mpr (Or.inl hw)
    · exact List.mem_append.mpr (Or.inr (ih h'))

lemma mem_zcEntries {rows : List (List ℚ)} {row : List ℚ} {w : ℚ}
    (hrow : row ∈ rows) (hw : w ∈ row.drop 8) : w ∈ zcEntries rows := by
  induction rows with
  | nil => simp at hrow
  | cons r rs ih =>
    rcases List.mem_cons.mp hrow with rfl | h'
    · exact List.mem_append.mpr (Or.inl hw)
    · exact List.mem_append.mpr (Or.inr (ih h'))

/-- Running-minimum update of `EMGRaw._update_min_max`; `none` is the initial
`float('inf')`. -/
def updMin (cur : Option ℚ) (m : ℚ) : Option ℚ :=
  match cur with
  | none => some m
  | some c => if m < c then some m else some c

/-- Running-maximum update of `EMGRaw._update_min_max` (initial value `0.0`). -/
def updMax (cur m : ℚ) : ℚ :=
  if cur < m then m else cur

lemma updMin_none (m : ℚ) : updMin none m = some m := rfl

lemma updMin_some (c m : ℚ) : updMin (some c) m = some (min c m) := by
  unfold updMin
  rcases lt_or_le m c with h | h
  · simp [h, min_eq_right (le_of_lt h)]
  · simp [not_lt.mpr h, min_eq_left h]

lemma updMax_eq_max (c m : ℚ) : updMax c m = max c m := by
  unfold updMax
  rcases lt_or_le c m with h | h
  · simp [h, max_eq_right (le_of_lt h)]
  · simp [not_lt.mpr h, max_eq_left h]

lemma le_updMax_left (c m : ℚ) : c ≤ updMax c m := by
  rw [updMax_eq_max]; exact le_max_left _ _

lemma le_updMax_right (c m : ℚ) : m ≤ updMax c m := by
  rw [updMax_eq_max]; exact le_max_right _ _

/-- The accumulated min/max state of an `EMGRaw` instance. -/
structure MinMaxState where
  min_rms : Option ℚ
  max_rms : ℚ
  min_zero_crossings : Option ℚ
  max_zero_crossings : ℚ
deriving DecidableEq

/-- State set up in `EMGRaw.__init__`: minima at `float('inf')`, maxima at `0.0`. -/
def initState : MinMaxState := ⟨none, 0, none, 0⟩

/-- Model of `EMGRaw._update_min_max`: take `np.amin`/`np.amax` of the two column
groups of the loaded array and fold them into the running bounds; `none` models
the `np.amin`/`np.amax` error on an empty slice. -/
def update_min_max (s : MinMaxState) (rows : List (List ℚ)) : Option MinMaxState :=
  match aminQ (rmsEntries rows), amaxQ (rmsEntries rows),
        aminQ (zcEntries rows), amaxQ (zcEntries rows) with
  | some a, some b, some c, some d =>
      some ⟨updMin s.min_rms a, updMax s.max_rms b,
            updMin s.min_zero_crossings c, updMax s.max_zero_crossings d⟩
  | _, _, _, _ => none

/-- Model of `EMGRaw._normalise` on one row: each RMS entry is mapped with the
accumulated RMS bounds, each zero-crossings entry with the zero-crossings
bounds. -/
def normaliseRow (mR MR mZ MZ : ℚ) (row : List ℚ) : List ℚ :=
  (row.take 8).map (fun v => (v - mR) / (MR - mR))
    ++ (row.drop 8).map (fun v => (v - mZ) / (MZ - mZ))

/-- Model of the feature part of `EMGRaw.load_data`: load the training input
files (updating the running bounds), then the test input files (updating the
bounds again), then normalise both partitions with the final accumulated
bounds.  Returns the pair of normalised train and test matrices; `none` models
a runtime error (empty slice). -/
def load_data (trainRows testRows : List (List ℚ)) :
    Option (List (List ℚ) × List (List ℚ)) :=
  match update_min_max initState trainRows with
  | none => none
  | some s1 =>
    match update_min_max s1 testRows with
    | none => none
    | some s2 =>
      match s2.min_rms, s2.min_zero_crossings with
      | some mR, some mZ =>
          some (trainRows.map (normaliseRow mR s2.max_rms mZ s2.max_zero_crossings),
                testRows.map (normaliseRow mR s2.max_rms mZ s2.max_zero_crossings))
      | _, _ => none

lemma update_min_max_eq_some {s s' : MinMaxState} {rows : List (List ℚ)}
    (h : update_min_max s rows = some s') :
    ∃ a b c d, aminQ (rmsEntries rows) = some a ∧ amaxQ (rmsEntries rows) = some b ∧
      aminQ (zcEntries rows) = some c ∧ amaxQ (zcEntries rows) = some d ∧
      s' = ⟨updMin s.min_rms a, updMax s.max_rms b,
            updMin s.min_zero_crossings c, updMax s.max_zero_crossings d⟩ := by
  rcases h1 : aminQ (rmsEntries rows) with _ | a <;>
    rcases h2 : amaxQ (rmsEntries rows) with _ | b <;>
      rcases h3 : aminQ (zcEntries rows) with _ | c <;>
        rcases h4 : amaxQ (zcEntries rows) with _ | d <;>
          simp [update_min_max, h1, h2, h3, h4] at h
  exact ⟨a, b, c, d, rfl, rfl, rfl, rfl, h.symm⟩

/-- Unfolding of a successful `load_data`: the bounds used are the running
minima over both input partitions and the running maxima (seeded with `0`)
over both partitions, and both returned matrices are normalised with those
same bounds. -/
lemma load_data_eq {train test tr' te' : List (List ℚ)}
    (h : load_data train test = some (tr', te')) :
    ∃ a1 b1 c1 d1 a2 b2 c2 d2,
      aminQ (rmsEntries train) = some a1 ∧ amaxQ (rmsEntries train) = some b1 ∧
      aminQ (zcEntries train) = some c1 ∧ amaxQ (zcEntries train) = some d1 ∧
      aminQ (rmsEntries test) = some a2 ∧ amaxQ (rmsEntries test) = some b2 ∧
      aminQ (zcEntries test) = some c2 ∧ amaxQ (zcEntries test) = some d2 ∧
      tr' = train.map (normaliseRow (min a1 a2) (updMax (updMax 0 b1) b2)
                                    (min c1 c2) (updMax (updMax 0 d1) d2)) ∧
      te' = test.map (normaliseRow (min a1 a2) (updMax (updMax 0 b1) b2)
                                   (min c1 c2) (updMax (updMax 0 d1) d2)) := by
  cases e1 : update_min_max initState train with
  | none => simp [load_data, e1] at h
  | some s1 =>
    cases e2 : update_min_max s1 test with
    | none => simp [load_data, e1, e2] at h
    | some s2 =>
      obtain ⟨a1, b1, c1, d1, ha1, hb1, hc1, hd1, hs1⟩ := update_min_max_eq_some e1
      obtain ⟨a2, b2, c2, d2, ha2, hb2, hc2, hd2, hs2⟩ := update_min_max_eq_some e2
      subst hs1
      subst hs2
      simp only [initState, updMin_none, updMin_some] at e1 e2
      simp only [load_data, initState, e1, e2] at h
      simp only [Option.some.injEq, Prod.mk.injEq] at h
      exact ⟨a1, b1, c1, d1, a2, b2, c2, d2,
        ha1, hb1, hc1, hd1, ha2, hb2, hc2, hd2, h.1.symm, h.2.symm⟩

lemma norm_group_bounds {l1 l2 : List ℚ} {a1 b1 a2 b2 : ℚ}
    (ha1 : aminQ l1 = some a1) (hb1 : amaxQ l1 = some b1)
    (ha2 : aminQ l2 = some a2) (hb2 : amaxQ l2 = some b2)
    (hst : ∃ x, (x ∈ l1 ∨ x ∈ l2) ∧ ∃ y, (y ∈ l1 ∨ y ∈ l2) ∧ x < y)
    {w : ℚ} (hw : w ∈ l1 ∨ w ∈ l2) :
    0 ≤ (w - min a1 a2) / (updMax (updMax 0 b1) b2 - min a1 a2) ∧
      (w - min a1 a2) / (updMax (updMax 0 b1) b2 - min a1 a2) ≤ 1 := by
  have hlow : ∀ u : ℚ, (u ∈ l1 ∨ u ∈ l2) → min a1 a2 ≤ u := by
    rintro u (hu | hu)
    · exact le_trans (min_le_left _ _) (aminQ_le ha1 u hu)
    · exact le_trans (min_le_right _ _) (aminQ_le ha2 u hu)
  have hhigh : ∀ u : ℚ, (u ∈ l1 ∨ u ∈ l2) → u ≤ updMax (updMax 0 b1) b2 := by
    rintro u (hu | hu)
    · exact le_trans (le_amaxQ hb1 u hu)
        (le_trans (le_updMax_right 0 b1) (le_updMax_left _ b2))
    · exact le_trans (le_amaxQ hb2 u hu) (le_updMax_right _ b2)
  obtain ⟨x, hx, y, hy, hxy⟩ := hst
  have hpos : 0 < updMax (updMax 0 b1) b2 - min a1 a2 := by
    have h1 := hlow x hx
    have h2 := hhigh y hy
    linarith
  constructor
  · exact div_nonneg (sub_nonneg.mpr (hlow w hw)) (le_of_lt hpos)
  · rw [div_le_one hpos]
    exact sub_le_sub_right (hhigh w hw) _

lemma normaliseRow_mem_unit {train test : List (List ℚ)} {a1 b1 c1 d1 a2 b2 c2 d2 : ℚ}
    (ha1 : aminQ (rmsEntries train) = some a1) (hb1 : amaxQ (rmsEntries train) = some b1)
    (hc1 : aminQ (zcEntries train) = some c1) (hd1 : amaxQ (zcEntries train) = some d1)
    (ha2 : aminQ (rmsEntries test) = some a2) (hb2 : amaxQ (rmsEntries test) = some b2)
    (hc2 : aminQ (zcEntries test) = some c2) (hd2 : amaxQ (zcEntries test) = some d2)
    (hR : ∃ x ∈ rmsEntries (train ++ test), ∃ y ∈ rmsEntries (train ++ test), x < y)
    (hZ : ∃ x ∈ zcEntries (train ++ test), ∃ y ∈ zcEntries (train ++ test), x < y)
    {row : List ℚ} (hrow : row ∈ train ∨ row ∈ test) :
    ∀ v ∈ normaliseRow (min a1 a2) (updMax (updMax 0 b1) b2)
        (min c1 c2) (updMax (updMax 0 d1) d2) row, 0 ≤ v ∧ v ≤ 1 := by
  have hR' : ∃ x, (x ∈ rmsEntries train ∨ x ∈ rmsEntries test) ∧
      ∃ y, (y ∈ rmsEntries train ∨ y ∈ rmsEntries test) ∧ x < y := by
    obtain ⟨x, hx, y, hy, hxy⟩ := hR
    rw [rmsEntries_append] at hx hy
    exact ⟨x, List.mem_append.mp hx, y, List.mem_append.mp hy, hxy⟩
  have hZ' : ∃ x, (x ∈ zcEntries train ∨ x ∈ zcEntries test) ∧
      ∃ y, (y ∈ zcEntries train ∨ y ∈ zcEntries test) ∧ x < y := by
    obtain ⟨x, hx, y, hy, hxy⟩ := hZ
    rw [zcEntries_append] at hx hy
    exact ⟨x, List.mem_append.mp hx, y, List.mem_append.mp hy, hxy⟩
  intro v hv
  rcases List.mem_append.mp hv with hv' | hv'
  · obtain ⟨w, hw, rfl⟩ := List.mem_map.mp hv'
    have hwm : w ∈ rmsEntries train ∨ w ∈ rmsEntries test := by
      rcases hrow with hr | hr
      · exact Or.inl (mem_rmsEntries hr hw)
      · exact Or.inr (mem_rmsEntries hr hw)
    exact norm_group_bounds ha1 hb1 ha2 hb2 hR' hwm
  · obtain ⟨w, hw, rfl⟩ := List.mem_map.mp hv'
    have hwm : w ∈ zcEntries train ∨ w ∈ zcEntries test := by
      rcases hrow with hr | hr
      · exact Or.inl (mem_zcEntries hr hw)
      · exact Or.inr (mem_zcEntries hr hw)
    exact norm_group_bounds hc1 hd1 hc2 hd2 hZ' hwm

/-- C9: if both feature groups have a strictly larger maximum than minimum over
the loaded input files, every entry of both matrices returned by
`EMGRaw.load_data` lies in the closed interval `[0, 1]`. -/
theorem emg_normalised_in_unit_interval
    (train test tr' te' : List (List ℚ))
    (h : load_data train test = some (tr', te'))
    (hR : ∃ x ∈ rmsEntries (train ++ test), ∃ y ∈ rmsEntries (train ++ test), x < y)
    (hZ : ∃ x ∈ zcEntries (train ++ test), ∃ y ∈ zcEntries (train ++ test), x < y) :
    ∀ row ∈ tr' ++ te', ∀ v ∈ row, 0 ≤ v ∧ v ≤ 1 := by
  obtain ⟨a1, b1, c1, d1, a2, b2, c2, d2,
    ha1, hb1, hc1, hd1, ha2, hb2, hc2, hd2, htr, hte⟩ := load_data_eq h
  intro row hrow v hv
  rcases List.mem_append.mp hrow with hmem | hmem
  · rw [htr] at hmem
    obtain ⟨r0, hr0, rfl⟩ := List.mem_map.mp hmem
    exact normaliseRow_mem_unit ha1 hb1 hc1 hd1 ha2 hb2 hc2 hd2 hR hZ (Or.inl hr0) v hv
  · rw [hte] at hmem
    obtain ⟨r0, hr0, rfl⟩ := List.mem_map.mp hmem
    exact normaliseRow_mem_unit ha1 hb1 hc1 hd1 ha2 hb2 hc2 hd2 hR hZ (Or.inr hr0) v hv

/-- C9 witness: on a concrete dataset `load_data` succeeds and the normalised
entry `1` taken from the returned training matrix lies in `[0, 1]`. -/
theorem emg_normalised_in_unit_interval_witness :
    0 ≤ (1 : ℚ) ∧ (1 : ℚ) ≤ 1 :=
  emg_normalised_in_unit_interval
    [[0, 0, 0, 0, 0, 0, 0, 0, 2], [1, 1, 1, 1, 1, 1, 1, 1, 4]]
    [[0, 0, 0, 0, 0, 0, 0, 0, 2], [1, 1, 1, 1, 1, 1, 1, 1, 4]]
    [[0, 0, 0, 0, 0, 0, 0, 0, 0], [1, 1, 1, 1, 1, 1, 1, 1, 1]]
    [[0, 0, 0, 0, 0, 0, 0, 0, 0], [1, 1, 1, 1, 1, 1, 1, 1, 1]]
    (by with_unfolding_all decide) (by decide) (by decide)
    [1, 1, 1, 1, 1, 1, 1, 1, 1] (by decide) 1 (by decide)

/-- C2 counterexample: two `load_data` runs with the same training partition and
different test partitions normalise the training partition differently, so
test-partition values do influence the min/max mapping. -/
theorem emg_test_influences_mapping :
    Option.map Prod.fst
        (load_data [[0, 0, 0, 0, 0, 0, 0, 0, 0], [1, 1, 1, 1, 1, 1, 1, 1, 1]]
          [[0, 0, 0, 0, 0, 0, 0, 0, 0], [1, 1, 1, 1, 1, 1, 1, 1, 1]])
      ≠ Option.map Prod.fst
        (load_data [[0, 0, 0, 0, 0, 0, 0, 0, 0], [1, 1, 1, 1, 1, 1, 1, 1, 1]]
          [[2, 2, 2, 2, 2, 2, 2, 2, 4]]) := by
  with_unfolding_all decide

/-- C2 as amended: the min/max bounds used by `EMGRaw.load_data` are accumulated
per feature group over both the training and the test input partitions (with
the running maximum seeded at `0`), and both partitions are transformed with
those same accumulated bounds. -/
theorem emg_shared_accumulated_bounds
    (train test tr' te' : List (List ℚ))
    (h : load_data train test = some (tr', te')) :
    ∃ mR MR0 mZ MZ0,
      aminQ (rmsEntries (train ++ test)) = some mR ∧
      amaxQ (rmsEntries (train ++ test)) = some MR0 ∧
      aminQ (zcEntries (train ++ test)) = some mZ ∧
      amaxQ (zcEntries (train ++ test)) = some MZ0 ∧
      tr' = train.map (normaliseRow mR (max 0 MR0) mZ (max 0 MZ0)) ∧
      te' = test.map (normaliseRow mR (max 0 MR0) mZ (max 0 MZ0)) := by
  obtain ⟨a1, b1, c1, d1, a2, b2, c2, d2,
    ha1, hb1, hc1, hd1, ha2, hb2, hc2, hd2, htr, hte⟩ := load_data_eq h
  have hmaxR : updMax (updMax 0 b1) b2 = max 0 (max b1 b2) := by
    rw [updMax_eq_max, updMax_eq_max, max_assoc]
  have hmaxZ : updMax (updMax 0 d1) d2 = max 0 (max d1 d2) := by
    rw [updMax_eq_max, updMax_eq_max, max_assoc]
  refine ⟨min a1 a2, max b1 b2, min c1 c2, max d1 d2, ?_, ?_, ?_, ?_, ?_, ?_⟩
  · rw [rmsEntries_append]; exact aminQ_append ha1 ha2
  · rw [rmsEntries_append]; exact amaxQ_append hb1 hb2
  · rw [zcEntries_append]; exact aminQ_append hc1 hc2
  · rw [zcEntries_append]; exact amaxQ_append hd1 hd2
  · rw [htr, hmaxR, hmaxZ]
  · rw [hte, hmaxR, hmaxZ]

/-- C2 witness: the amended statement at a concrete pair of partitions. -/
theorem emg_shared_accumulated_bounds_witness :
    ∃ mR MR0 mZ MZ0,
      aminQ (rmsEntries ([[0, 0, 0, 0, 0, 0, 0, 0, 5]] ++ [[4, 4, 4, 4, 4, 4, 4, 4, 1]]))
          = some mR ∧
      amaxQ (rmsEntries ([[0, 0, 0, 0, 0, 0, 0, 0, 5]] ++ [[4, 4, 4, 4, 4, 4, 4, 4, 1]]))
          = some MR0 ∧
      aminQ (zcEntries ([[0, 0, 0, 0, 0, 0, 0, 0, 5]] ++ [[4, 4, 4, 4, 4, 4, 4, 4, 1]]))
          = some mZ ∧
      amaxQ (zcEntries ([[0, 0, 0, 0, 0, 0, 0, 0, 5]] ++ [[4, 4, 4, 4, 4, 4, 4, 4, 1]]))
          = some MZ0 ∧
      ([[0, 0, 0, 0, 0, 0, 0, 0, 1]] : List (List ℚ))
          = [[0, 0, 0, 0, 0, 0, 0, 0, 5]].map (normaliseRow mR (max 0 MR0) mZ (max 0 MZ0)) ∧
      ([[1, 1, 1, 1, 1, 1, 1, 1, 0]] : List (List ℚ))
          = [[4, 4, 4, 4, 4, 4, 4, 4, 1]].map (normaliseRow mR (max 0 MR0) mZ (max 0 MZ0)) :=
  emg_shared_accumulated_bounds [[0, 0, 0, 0, 0, 0, 0, 0, 5]] [[4, 4, 4, 4, 4, 4, 4, 4, 1]]
    [[0, 0, 0, 0, 0, 0, 0, 0, 1]] [[1, 1, 1, 1, 1, 1, 1, 1, 0]]
    (by with_unfolding_all decide)

/-- Model of Python `row.index('1')` in `EMGRaw._load_files` for output files:
the index of the first cell equal to `"1"`; `none` models the `ValueError`
raised when no cell matches. -/
def index_of_one : List String → Option Nat
  | [] => none
  | c :: cs => if c = "1" then some 0 else (index_of_one cs).map (· + 1)

/-- Model of the `is_output` branch of `EMGRaw._load_files`: each CSV row is
mapped to `row.index('1')`; a row without a `'1'` raises, which propagates as
`none` for the whole load. -/
def load_output_rows : List (List String) → Option (List Nat)
  | [] => some []
  | r :: rs =>
    match index_of_one r with
    | none => none
    | some v => (load_output_rows rs).map (v :: ·)


lemma index_of_one_eq_none_iff (row : List String) :
    index_of_one row = none ↔ ∀ c ∈ row, c ≠ "1" := by
  induction row with
  | nil => simp [index_of_one]
  | cons c cs ih =>
    by_cases hc : c = "1"
    · subst hc
      simp [index_of_one]
    · rw [index_of_one, if_neg hc, Option.map_eq_none', ih]
      simp [List.forall_mem_cons, hc]

lemma index_of_one_eq_some_iff (row : List String) (i : Nat) :
    index_of_one row = some i ↔
      row.get? i = some "1" ∧ ∀ k, k < i → row.get? k ≠ some "1" := by
  induction row generalizing i with
  | nil => simp [index_of_one]
  | cons c cs ih =>
    by_cases hc : c = "1"
    · subst hc
      simp only [index_of_one, if_pos rfl]
      cases i with
      | zero => simp
      | succ j =>
        constructor
        · intro hj
          exact absurd (Option.some.inj hj) (by omega)
        · rintro ⟨-, hk⟩
          exact absurd rfl (hk 0 (Nat.succ_pos j))
    · simp only [index_of_one, if_neg hc]
      cases i with
      | zero =>
        constructor
        · intro hj
          rcases Option.map_eq_some'.mp hj with ⟨j', hj', hj2⟩
          omega
        · rintro ⟨hcell, -⟩
          exact absurd (Option.some.inj hcell) hc
      | succ j =>
        rw [Option.map_eq_some']
        constructor
        · rintro ⟨j', hj', hj2⟩
          have hjj : j' = j := by omega
          rw [hjj] at hj'
          obtain ⟨h1, h2⟩ := (ih j).mp hj'
          refine ⟨h1, ?_⟩
          intro k hk
          cases k with
          | zero =>
            intro hcell
            exact hc (Option.some.inj hcell)
          | succ k' => exact h2 k' (by omega)
        · rintro ⟨h1, h2⟩
          exact ⟨j, (ih j).mpr ⟨h1, fun k hk => h2 (k + 1) (by omega)⟩, rfl⟩

/-- C10: output rows decode one-hot by the first `'1'` cell: `index_of_one`
returns `i` exactly when cell `i` is `"1"` and no earlier cell is; it returns
`none` (the ValueError) exactly when no cell is `"1"`, and such a row makes the
whole output load fail instead of producing a default label. -/
theorem emg_output_first_one (row : List String) (i : Nat) :
    (index_of_one row = some i ↔
      row.get? i = some "1" ∧ ∀ k, k < i → row.get? k ≠ some "1")
    ∧ (index_of_one row = none ↔ ∀ c ∈ row, c ≠ "1")
    ∧ (∀ rows : List (List String), row ∈ rows → index_of_one row = none →
        load_output_rows rows = none) := by
  refine ⟨index_of_one_eq_some_iff row i, index_of_one_eq_none_iff row, ?_⟩
  intro rows hmem hnone
  induction rows with
  | nil => simp at hmem
  | cons r rs ih =>
    rcases List.mem_cons.mp hmem with rfl | h'
    · simp [load_output_rows, hnone]
    · cases hr : index_of_one r with
      | none => simp [load_output_rows, hr]
      | some v => simp [load_output_rows, hr, ih h']

/-- C10 witness: the first-one decoding and the error propagation at concrete
rows. -/
theorem emg_output_first_one_witness :
    ((index_of_one ["0", "1", "1"] = some 1 ↔
      ["0", "1", "1"].get? 1 = some "1" ∧
        ∀ k, k < 1 → ["0", "1", "1"].get? k ≠ some "1")
    ∧ (index_of_one ["0", "1", "1"] = none ↔ ∀ c ∈ ["0", "1", "1"], c ≠ "1")
    ∧ (∀ rows : List (List String), ["0", "1", "1"] ∈ rows →
        index_of_one ["0", "1", "1"] = none → load_output_rows rows = none)) :=
  emg_output_first_one ["0", "1", "1"] 1

/-! ### dataset_tester (`decision_trees/dataset_tester.py`) -/

/-- State threaded through the loops of `_compare_with_own_classifier`:
the per-variant error counters (`number_of_errors`), the sample indices written
to the details file, and the `flag_no_errors` flag. -/
structure CmpState where
  number_of_errors : List Nat
  log : List Nat
  flag_no_errors : Bool
deriving DecidableEq

/-- Per-sample mismatch flags of the inner loop over variants: one Boolean per
variant recording `results[i][j] != test_target[j]` (ground truth `t`); `none`
models the IndexError when some variant has no prediction at index `j`. -/
def sampleFlags (t : ℤ) (j : Nat) : List (List ℤ) → Option (List Bool)
  | [] => some []
  | r :: rs =>
    match r.get? j with
    | none => none
    | some v =>
      match sampleFlags t j rs with
      | none => none
      | some bs => some (decide (v ≠ t) :: bs)

/-- One iteration of the outer loop over sample index `j`: bump the counter of
every mismatching variant, append `j` to the details log when any variant
mismatches, and clear `flag_no_errors` in that case. -/
def compareStep (results : List (List ℤ)) (target : List ℤ) (s : CmpState) (j : Nat) :
    Option CmpState :=
  match target.get? j with
  | none => none
  | some t =>
    match sampleFlags t j results with
    | none => none
    | some ms =>
      some ⟨List.zipWith (fun b c => if b then c + 1 else c) ms s.number_of_errors,
            if ms.any id then s.log ++ [j] else s.log,
            s.flag_no_errors && !(ms.any id)⟩

/-- The outer loop of `_compare_with_own_classifier` over a list of sample
indices. -/
def compareLoop (results : List (List ℤ)) (target : List ℤ) :
    List Nat → CmpState → Option CmpState
  | [], s => some s
  | j :: js, s =>
    match compareStep results target s j with
    | none => none
    | some s2 => compareLoop results target js s2

/-- Pure model of `_compare_with_own_classifier` (with
`flag_save_details_to_file = True`): iterate over all sample indices of the
ground-truth vector and return the final counters, logged sample indices and
no-errors flag. -/
def compare_with_own_classifier (results : List (List ℤ)) (target : List ℤ) :
    Option CmpState :=
  compareLoop results target (List.range target.length)
    ⟨List.replicate results.length 0, [], true⟩

/-- Whether variant `i` mismatches the ground truth at sample `j`. -/
def variantErr (results : List (List ℤ)) (target : List ℤ) (i j : Nat) : Bool :=
  decide ((results.getD i []).getD j 0 ≠ target.getD j 0)

/-- Whether at least one variant mismatches the ground truth at sample `j`. -/
def sampleErr (results : List (List ℤ)) (target : List ℤ) (j : Nat) : Bool :=
  results.any (fun r => decide (r.getD j 0 ≠ target.getD j 0))

/-- Whether at least two variants disagree with each other at sample `j`. -/
def interVariantDisagree (results : List (List ℤ)) (j : Nat) : Bool :=
  results.any (fun r => results.any (fun r2 => decide (r.getD j 0 ≠ r2.getD j 0)))

/-- Number of samples at which at least two variants' predictions differ. -/
def interDisagreeCount (results : List (List ℤ)) (target : List ℤ) : Nat :=
  ((List.range target.length).filter (interVariantDisagree results)).length

lemma any_id_map {α : Type} (f : α → Bool) (l : List α) : (l.map f).any id = l.any f := by
  induction l with
  | nil => rfl
  | cons a as ih => simp [ih]

lemma getD_map_of_lt {α β : Type} (f : α → β) (l : List α) (i : Nat) (d : α) (db : β)
    (hi : i < l.length) :
    (l.map f).getD i db = f (l.getD i d) := by
  have h1 := get?_eq_some_getD l i d hi
  have h2 : (l.map f).get? i = some (f (l.getD i d)) := by
    rw [List.get?_map, h1, Option.map_some']
  rw [List.getD_eq_getElem?_getD, ← List.get?_eq_getElem?, h2, Option.getD_some]

lemma zipWith_bump_getD (ms : List Bool) (cs : List Nat) (i : Nat)
    (hlen : ms.length = cs.length) (hi : i < ms.length) :
    (List.zipWith (fun b c => if b then c + 1 else c) ms cs).getD i 0
      = cs.getD i 0 + (if ms.getD i false then 1 else 0) := by
  induction ms generalizing cs i with
  | nil => simp at hi
  | cons b bs ih =>
    cases cs with
    | nil => simp at hlen
    | cons c cs' =>
      cases i with
      | zero => cases b <;> simp
      | succ k =>
        have hrec := ih cs' k (by simpa using hlen) (by simpa using hi)
        simpa using hrec

lemma sampleFlags_eq (t : ℤ) (j : Nat) (rs : List (List ℤ))
    (h : ∀ r ∈ rs, j < r.length) :
    sampleFlags t j rs = some (rs.map (fun r => decide (r.getD j 0 ≠ t))) := by
  induction rs with
  | nil => rfl
  | cons r rs' ih =>
    have hr : j < r.length := h r (List.mem_cons_self r rs')
    have hget := get?_eq_some_getD r j 0 hr
    rw [sampleFlags, hget, ih (fun r' hm => h r' (List.mem_cons_of_mem _ hm))]
    rfl

lemma compareLoop_spec (results : List (List ℤ)) (target : List ℤ) (js : List Nat)
    (hjs : ∀ j ∈ js, j < target.length ∧ ∀ r ∈ results, j < r.length) :
    ∀ s : CmpState, s.number_of_errors.length = results.length →
    ∃ s2, compareLoop results target js s = some s2 ∧
      s2.number_of_errors.length = results.length ∧
      (∀ i, i < results.length →
        s2.number_of_errors.getD i 0 = s.number_of_errors.getD i 0
          + (js.filter (fun j => variantErr results target i j)).length) ∧
      s2.log = s.log ++ js.filter (fun j => sampleErr results target j) ∧
      s2.flag_no_errors
        = (s.flag_no_errors && !(js.any (fun j => sampleErr results target j))) := by
  induction js with
  | nil =>
    intro s hs
    exact ⟨s, rfl, hs, fun i _ => by simp, by simp, by simp⟩
  | cons j js' ih =>
    intro s hs
    obtain ⟨hjt, hjr⟩ := hjs j (List.mem_cons_self j js')
    have htg := get?_eq_some_getD target j 0 hjt
    have hflags := sampleFlags_eq (target.getD j 0) j results hjr
    have hms_len : (results.map (fun r => decide (r.getD j 0 ≠ target.getD j 0))).length
        = results.length := List.length_map _ _
    have hany : (results.map (fun r => decide (r.getD j 0 ≠ target.getD j 0))).any id
        = sampleErr results target j := by
      rw [any_id_map]; rfl
    have hstep : compareStep results target s j = some
        ⟨List.zipWith (fun b c => if b then c + 1 else c)
            (results.map (fun r => decide (r.getD j 0 ≠ target.getD j 0))) s.number_of_errors,
          if sampleErr results target j then s.log ++ [j] else s.log,
          s.flag_no_errors && !(sampleErr results target j)⟩ := by
      simp only [compareStep, htg, hflags, hany]
    have hs1len : (List.zipWith (fun b c => if b then c + 1 else c)
        (results.map (fun r => decide (r.getD j 0 ≠ target.getD j 0)))
        s.number_of_errors).length = results.length := by
      rw [List.length_zipWith, hms_len, hs]
      exact Nat.min_self _
    obtain ⟨s2, hloop, hlen2, hcounts2, hlog2, hflag2⟩ :=
      ih (fun j' hm => hjs j' (List.mem_cons_of_mem _ hm))
        ⟨List.zipWith (fun b c => if b then c + 1 else c)
            (results.map (fun r => decide (r.getD j 0 ≠ target.getD j 0))) s.number_of_errors,
          if sampleErr results target j then s.log ++ [j] else s.log,
          s.flag_no_errors && !(sampleErr results target j)⟩ hs1len
    refine ⟨s2, ?_, hlen2, ?_, ?_, ?_⟩
    · simp only [compareLoop, hstep]
      exact hloop
    · intro i hi
      have hbump := zipWith_bump_getD
        (results.map (fun r => decide (r.getD j 0 ≠ target.getD j 0)))
        s.number_of_errors i (by rw [hms_len, hs]) (by rw [hms_len]; exact hi)
      have hgetm : (results.map (fun r => decide (r.getD j 0 ≠ target.getD j 0))).getD i false
          = variantErr results target i j := by
        rw [getD_map_of_lt _ results i [] false hi]
        rfl
      rw [hgetm] at hbump
      have h2 : s2.number_of_errors.getD i 0
          = (List.zipWith (fun b c => if b then c + 1 else c)
              (results.map (fun r => decide (r.getD j 0 ≠ target.getD j 0)))
              s.number_of_errors).getD i 0
            + (js'.filter (fun j' => variantErr results target i j')).length :=
        hcounts2 i hi
      rw [h2, hbump, List.filter_cons]
      by_cases hv : variantErr results target i j = true
      · rw [if_pos hv, if_pos hv]
        simp only [List.length_cons]
        omega
      · rw [if_neg hv, if_neg hv]
        omega
    · have h3 : s2.log = (if sampleErr results target j then s.log ++ [j] else s.log)
          ++ js'.filter (fun j' => sampleErr results target j') := hlog2
      rw [h3, List.filter_cons]
      by_cases hse : sampleErr results target j = true
      · rw [if_pos hse, if_pos hse]
        simp
      · rw [if_neg hse, if_neg hse]
    · have h4 : s2.flag_no_errors
          = ((s.flag_no_errors && !(sampleErr results target j))
            && !(js'.any (fun j' => sampleErr results target j'))) := hflag2
      rw [h4, List.any_cons]
      simp [Bool.and_assoc]

lemma getD_replicate_zero (n i : Nat) : (List.replicate n (0 : Nat)).getD i 0 = 0 := by
  induction n generalizing i with
  | zero => simp
  | succ k ih => cases i <;> simp [List.replicate_succ, ih]

lemma range_bounds_of_le {results : List (List ℤ)} {target : List ℤ}
    (h : ∀ r ∈ results, target.length ≤ r.length) :
    ∀ j ∈ List.range target.length, j < target.length ∧ ∀ r ∈ results, j < r.length := by
  intro j hj
  have hjlt := List.mem_range.mp hj
  exact ⟨hjlt, fun r hr => lt_of_lt_of_le hjlt (h r hr)⟩

/-- C4: after a comparison run, the accumulated mismatch counter of variant `i`
equals the number of sample indices at which variant `i` differs from the
ground truth, and is therefore at most the number of test samples. -/
theorem compare_counts_mismatches (results : List (List ℤ)) (target : List ℤ)
    (h : ∀ r ∈ results, target.length ≤ r.length) (i : Nat) (hi : i < results.length) :
    ∃ rep, compare_with_own_classifier results target = some rep ∧
      rep.number_of_errors.getD i 0
        = ((List.range target.length).filter (fun j => variantErr results target i j)).length ∧
      rep.number_of_errors.getD i 0 ≤ target.length := by
  obtain ⟨s2, hloop, hlen2, hcounts2, hlog2, hflag2⟩ :=
    compareLoop_spec results target (List.range target.length) (range_bounds_of_le h)
      ⟨List.replicate results.length 0, [], true⟩ (by simp)
  have hc : s2.number_of_errors.getD i 0
      = (List.replicate results.length (0 : Nat)).getD i 0
        + ((List.range target.length).filter (fun j => variantErr results target i j)).length :=
    hcounts2 i hi
  rw [getD_replicate_zero, Nat.zero_add] at hc
  refine ⟨s2, hloop, hc, ?_⟩
  rw [hc]
  calc ((List.range target.length).filter (fun j => variantErr results target i j)).length
      ≤ (List.range target.length).length := List.length_filter_le _ _
    _ = target.length := List.length_range _

/-- C4 witness: a two-variant run on one sample where the second variant
mismatches. -/
theorem compare_counts_mismatches_witness :
    ∃ rep, compare_with_own_classifier [[3], [4]] [3] = some rep ∧
      rep.number_of_errors.getD 1 0
        = ((List.range ([3] : List ℤ).length).filter
            (fun j => variantErr [[3], [4]] [3] 1 j)).length ∧
      rep.number_of_errors.getD 1 0 ≤ ([3] : List ℤ).length :=
  compare_counts_mismatches [[3], [4]] [3] (by decide) 1 (by decide)

/-- C1 counterexample: with two variants that agree with each other but both
differ from the ground truth, one disagreement entry is logged although no two
variants' predictions differ, so the logged-entry count is not the
inter-variant disagreement count. -/
theorem compare_log_count_counterexample :
    Option.map (fun r => r.log.length) (compare_with_own_classifier [[0], [0]] [1]) = some 1
    ∧ interDisagreeCount [[0], [0]] [1] = 0 := by
  decide

/-- C1 as amended: the number of disagreement entries written to the details
log equals the number of sample indices at which at least one variant's
prediction differs from the ground truth (every sample with inter-variant
disagreement is included, but so is every sample where all variants agree on a
wrong prediction). -/
theorem compare_log_counts_ground_truth_mismatches (results : List (List ℤ))
    (target : List ℤ) (h : ∀ r ∈ results, target.length ≤ r.length) :
    ∃ rep, compare_with_own_classifier results target = some rep ∧
      rep.log.length
        = ((List.range target.length).filter (fun j => sampleErr results target j)).length := by
  obtain ⟨s2, hloop, hlen2, hcounts2, hlog2, hflag2⟩ :=
    compareLoop_spec results target (List.range target.length) (range_bounds_of_le h)
      ⟨List.replicate results.length 0, [], true⟩ (by simp)
  have hl : s2.log
      = ([] : List Nat) ++ (List.range target.length).filter (fun j => sampleErr results target j) :=
    hlog2
  rw [List.nil_append] at hl
  exact ⟨s2, hloop, by rw [hl]⟩

/-- C1 amended witness: a run with one agreeing-but-wrong sample and one
mismatching sample logs exactly the two ground-truth-mismatch samples. -/
theorem compare_log_counts_ground_truth_mismatches_witness :
    ∃ rep, compare_with_own_classifier [[1, 2], [2, 2]] [1, 1] = some rep ∧
      rep.log.length
        = ((List.range ([1, 1] : List ℤ).length).filter
            (fun j => sampleErr [[1, 2], [2, 2]] [1, 1] j)).length :=
  compare_log_counts_ground_truth_mismatches [[1, 2], [2, 2]] [1, 1] (by decide)

/-- C6: the comparison pass never aborts on mismatches: whenever every variant
has a prediction for each test sample, it returns a report, regardless of how
many per-variant or inter-variant disagreements occur. -/
theorem compare_total_no_abort (results : List (List ℤ)) (target : List ℤ)
    (h : ∀ r ∈ results, target.length ≤ r.length) :
    ∃ rep, compare_with_own_classifier results target = some rep := by
  obtain ⟨s2, hloop, _⟩ :=
    compareLoop_spec results target (List.range target.length) (range_bounds_of_le h)
      ⟨List.replicate results.length 0, [], true⟩ (by simp)
  exact ⟨s2, hloop⟩

/-- C6 witness: a run in which every sample mismatches still returns a report. -/
theorem compare_total_no_abort_witness :
    ∃ rep, compare_with_own_classifier [[5, 6], [7, 8]] [9, 9] = some rep :=
  compare_total_no_abort [[5, 6], [7, 8]] [9, 9] (by decide)

/-- The kinds of trained scikit-learn model this repository produces (via
`get_classifier`) and that `generate_my_classifier` dispatches on with
`isinstance` checks. -/
inductive SklearnModel
  | DecisionTreeClassifier
  | RandomForestClassifier
  | RandomForestRegressor
deriving DecidableEq

/-- The classifier types of the repository's `ClassifierType` enum that are
used by `dataset_tester` (`get_classifier` and `report_performance`). -/
inductive ClassifierType
  | DECISION_TREE
  | RANDOM_FOREST
  | RANDOM_FOREST_REGRESSOR
deriving DecidableEq

/-- Modelled from the spec: `get_classifier` (in
`decision_trees.utils.constants`, not under `src/`) builds the scikit model for
a classifier type; only the kind of the returned model matters to
`generate_my_classifier`, which dispatches on it. -/
def get_classifier : ClassifierType → SklearnModel
  | .DECISION_TREE => .DecisionTreeClassifier
  | .RANDOM_FOREST => .RandomForestClassifier
  | .RANDOM_FOREST_REGRESSOR => .RandomForestRegressor

/-- The fixed-point classifier object built by `generate_my_classifier`: either
a `Tree` or a `RandomForest`, with the constructor arguments it was given. -/
structure MyClassifier where
  name : String
  number_of_features : Nat
  number_of_bits_per_feature : Nat
  is_forest : Bool
deriving DecidableEq

/-- Side effects of `generate_my_classifier` after the dispatch:
`my_clf.build(clf)`, `my_clf.create_vhdl_file(path)`,
`my_clf.print_parameters(result_file)`. -/
inductive GenEffect
  | built_model
  | created_vhdl_file
  | printed_parameters
deriving DecidableEq

/-- Model of `generate_my_classifier`: dispatch on the trained model's kind;
`DecisionTreeClassifier` and `RandomForestClassifier` build a fixed-point
object and then run build / VHDL-file creation / parameter printing, while any
other kind raises `ValueError("Unknown type of classifier!")` before any of
those steps.  The first component lists the side effects performed, in order. -/
def generate_my_classifier (clf : SklearnModel)
    (number_of_features number_of_bits : Nat) :
    List GenEffect × Except String MyClassifier :=
  match clf with
  | .DecisionTreeClassifier =>
      ([.built_model, .created_vhdl_file, .printed_parameters],
       .ok ⟨"DecisionTreeClassifier", number_of_features, number_of_bits, false⟩)
  | .RandomForestClassifier =>
      ([.built_model, .created_vhdl_file, .printed_parameters],
       .ok ⟨"RandomForestClassifier", number_of_features, number_of_bits, true⟩)
  | .RandomForestRegressor =>
      ([], .error "Unknown type of classifier!")

/-- C3 counterexample: a trained `RandomForestRegressor` - a supported
ensemble/regressor kind per the spec - makes `generate_my_classifier` raise
instead of succeeding. -/
theorem generate_my_classifier_rejects_regressor :
    (generate_my_classifier SklearnModel.RandomForestRegressor 8 9).2
      = Except.error "Unknown type of classifier!" := rfl

/-- C3 as amended: `generate_my_classifier` succeeds exactly on
`DecisionTreeClassifier` and `RandomForestClassifier` models and raises the
unknown-classifier `ValueError` on every other kind, including the regressor
ensemble. -/
theorem generate_my_classifier_success_iff (clf : SklearnModel) (nf nb : Nat) :
    (∃ m, (generate_my_classifier clf nf nb).2 = Except.ok m)
      ↔ (clf = SklearnModel.DecisionTreeClassifier
          ∨ clf = SklearnModel.RandomForestClassifier) := by
  cases clf <;> simp [generate_my_classifier]

/-- C7: when `generate_my_classifier` raises on an unrecognized model kind, no
partial processing has happened: no build step ran, no VHDL file was created,
nothing was printed, and no classifier object is returned. -/
theorem generate_error_no_partial_processing (clf : SklearnModel) (nf nb : Nat)
    (e : String) (h : (generate_my_classifier clf nf nb).2 = Except.error e) :
    (generate_my_classifier clf nf nb).1 = []
      ∧ ∀ m, (generate_my_classifier clf nf nb).2 ≠ Except.ok m := by
  cases clf <;> simp_all [generate_my_classifier]

/-- C7 witness: the regressor kind raises with an empty effect trace. -/
theorem generate_error_no_partial_processing_witness :
    (generate_my_classifier SklearnModel.RandomForestRegressor 4 5).1 = []
      ∧ ∀ m, (generate_my_classifier SklearnModel.RandomForestRegressor 4 5).2
          ≠ Except.ok m :=
  generate_error_no_partial_processing SklearnModel.RandomForestRegressor 4 5
    "Unknown type of classifier!" rfl

/-- Round half up of a rational to an integer. -/
def roundHalfUp (q : ℚ) : ℤ := Rat.floor (q + 1 / 2)

/-- Clamp an integer code to the representable range `[0, 2^bits - 1]`. -/
def clampCode (bits : Nat) (z : ℤ) : ℤ := max 0 (min z (2 ^ bits - 1))

/-- Modelled from the spec: the per-value mapping of `quantize_data`
(`decision_trees.utils.convert_to_fixed_point`, not under `src/`): a raw value
maps to `round((v - min) / (max - min) * (2^bits - 1))` clamped to
`[0, 2^bits - 1]`, with a degenerate column (`min = max`) mapping to code 0. -/
def quantizeValue (mn mx : ℚ) (bits : Nat) (v : ℚ) : ℚ :=
  if mn = mx then 0
  else ((clampCode bits (roundHalfUp ((v - mn) / (mx - mn) * (2 ^ bits - 1)))) : ℤ)

/-- Modelled from the spec: `quantize_data` (not under `src/`): per feature
column, min and max are taken from the training partition only, and the same
per-column mapping is applied to both the training and the test partition. -/
def quantize_data (train test : List (List ℚ)) (bits : Nat) :
    List (List ℚ) × List (List ℚ) :=
  let cols := (train.headD []).length
  let mn := fun (j : Nat) => (aminQ (train.map (fun r => r.getD j 0))).getD 0
  let mx := fun (j : Nat) => (amaxQ (train.map (fun r => r.getD j 0))).getD 0
  let qrow := fun (r : List ℚ) =>
    (List.range cols).map (fun j => quantizeValue (mn j) (mx j) bits (r.getD j 0))
  (train.map qrow, test.map qrow)

lemma quantize_data_snd_length (train test : List (List ℚ)) (bits : Nat) :
    (quantize_data train test bits).2.length = test.length := by
  simp [quantize_data]

/-- Everything `test_dataset` computes that the claims refer to: the three
prediction vectors, the fixed-point classifier object, and the arguments handed
to `_compare_with_own_classifier`. -/
structure TestDatasetRun where
  test_predicted : List ℤ
  test_predicted_quantized : List ℤ
  my_clf_test_predicted_quantized : List ℤ
  my_clf : MyClassifier
  compare_results : List (List ℤ)
  compare_names : List String
  compare_target : List ℤ
deriving DecidableEq

/-- Model of `test_dataset`: train the scikit classifier on the raw data and
predict the test set, quantize train and test data, retrain on the quantized
data and predict the quantized test set, build the fixed-point classifier with
bit width `number_of_bits_per_feature + 1`, predict the quantized test set with
it, and hand the three prediction vectors with their names and the ground truth
to the comparison pass.  Scikit training and fixed-point prediction are
external per-sample predictors passed as arguments (`sk_fit`, `my_predict`);
`none` models an exception (unknown classifier kind, or empty training data at
`len(train_data[0])`). -/
def test_dataset (number_of_bits_per_feature : Nat)
    (train_data : List (List ℚ)) (train_target : List ℤ)
    (test_data : List (List ℚ)) (test_target : List ℤ)
    (clf_type : ClassifierType)
    (sk_fit : List (List ℚ) → List ℤ → (List ℚ → ℤ))
    (my_predict : MyClassifier → List ℚ → ℤ) :
    Option TestDatasetRun :=
  let clf := get_classifier clf_type
  let clf_fit := sk_fit train_data train_target
  let test_predicted := test_data.map clf_fit
  let q := quantize_data train_data test_data number_of_bits_per_feature
  let clf_fit_q := sk_fit q.1 train_target
  let test_predicted_quantized := q.2.map clf_fit_q
  match train_data.head? with
  | none => none
  | some row0 =>
    match (generate_my_classifier clf row0.length (number_of_bits_per_feature + 1)).2 with
    | .error _ => none
    | .ok my_clf =>
      let my_pred := q.2.map (my_predict my_clf)
      some ⟨test_predicted, test_predicted_quantized, my_pred, my_clf,
            [test_predicted, test_predicted_quantized, my_pred],
            ["scikit", "scikit_quantized", "own_clf_quantized"],
            test_target⟩

/-- C5: whenever `test_dataset` runs to completion with feature bit width
`bits`, the fixed-point classifier it builds is constructed with bit width
exactly `bits + 1`. -/
theorem test_dataset_threshold_bits (bits : Nat)
    (train_data : List (List ℚ)) (train_target : List ℤ)
    (test_data : List (List ℚ)) (test_target : List ℤ) (clf_type : ClassifierType)
    (sk_fit : List (List ℚ) → List ℤ → (List ℚ → ℤ))
    (my_predict : MyClassifier → List ℚ → ℤ) (run : TestDatasetRun)
    (h : test_dataset bits train_data train_target test_data test_target clf_type
        sk_fit my_predict = some run) :
    run.my_clf.number_of_bits_per_feature = bits + 1 := by
  cases htr : train_data.head? with
  | none => simp [test_dataset, htr] at h
  | some row0 =>
    cases clf_type with
    | DECISION_TREE =>
      simp only [test_dataset, htr, get_classifier, generate_my_classifier,
        Option.some.injEq] at h
      subst h
      rfl
    | RANDOM_FOREST =>
      simp only [test_dataset, htr, get_classifier, generate_my_classifier,
        Option.some.injEq] at h
      subst h
      rfl
    | RANDOM_FOREST_REGRESSOR =>
      simp [test_dataset, htr, get_classifier, generate_my_classifier] at h

/-- C5 witness: a concrete pipeline run with 3-bit features builds the
fixed-point classifier with bit width 4. -/
theorem test_dataset_threshold_bits_witness :
    (⟨[0], [0], [0], ⟨"DecisionTreeClassifier", 1, 4, false⟩,
      [[0], [0], [0]], ["scikit", "scikit_quantized", "own_clf_quantized"],
      [0]⟩ : TestDatasetRun).my_clf.number_of_bits_per_feature = 3 + 1 :=
  test_dataset_threshold_bits 3 [[0]] [0] [[0]] [0] ClassifierType.DECISION_TREE
    (fun _ _ => fun _ => 0) (fun _ _ => 0)
    ⟨[0], [0], [0], ⟨"DecisionTreeClassifier", 1, 4, false⟩,
      [[0], [0], [0]], ["scikit", "scikit_quantized", "own_clf_quantized"], [0]⟩
    (by with_unfolding_all decide)

/-- C8: every completed pipeline run hands exactly three prediction vectors -
floating scikit, quantized-input scikit, and fixed-point - to the comparison
pass, each with one output per test sample, together with their variant names
and the ground truth. -/
theorem test_dataset_three_variants (bits : Nat)
    (train_data : List (List ℚ)) (train_target : List ℤ)
    (test_data : List (List ℚ)) (test_target : List ℤ) (clf_type : ClassifierType)
    (sk_fit : List (List ℚ) → List ℤ → (List ℚ → ℤ))
    (my_predict : MyClassifier → List ℚ → ℤ) (run : TestDatasetRun)
    (h : test_dataset bits train_data train_target test_data test_target clf_type
        sk_fit my_predict = some run) :
    run.compare_results = [run.test_predicted, run.test_predicted_quantized,
        run.my_clf_test_predicted_quantized]
      ∧ run.compare_results.length = 3
      ∧ (∀ p ∈ run.compare_results, p.length = test_data.length)
      ∧ run.compare_names = ["scikit", "scikit_quantized", "own_clf_quantized"]
      ∧ run.compare_target = test_target := by
  cases htr : train_data.head? with
  | none => simp [test_dataset, htr] at h
  | some row0 =>
    cases clf_type with
    | DECISION_TREE =>
      simp only [test_dataset, htr, get_classifier, generate_my_classifier,
        Option.some.injEq] at h
      subst h
      refine ⟨rfl, rfl, ?_, rfl, rfl⟩
      intro p hp
      rcases List.mem_cons.mp hp with rfl | hp'
      · simp
      rcases List.mem_cons.mp hp' with rfl | hp''
      · simp [quantize_data_snd_length]
      rcases List.mem_cons.mp hp'' with rfl | hp3
      · simp [quantize_data_snd_length]
      · simp at hp3
    | RANDOM_FOREST =>
      simp only [test_dataset, htr, get_classifier, generate_my_classifier,
        Option.some.injEq] at h
      subst h
      refine ⟨rfl, rfl, ?_, rfl, rfl⟩
      intro p hp
      rcases List.mem_cons.mp hp with rfl | hp'
      · simp
      rcases List.mem_cons.mp hp' with rfl | hp''
      · simp [quantize_data_snd_length]
      rcases List.mem_cons.mp hp'' with rfl | hp3
      · simp [quantize_data_snd_length]
      · simp at hp3
    | RANDOM_FOREST_REGRESSOR =>
      simp [test_dataset, htr, get_classifier, generate_my_classifier] at h

/-- C8 witness: a concrete three-sample pipeline run hands exactly the three
prediction vectors, each of length 3, with their names and ground truth. -/
theorem test_dataset_three_variants_witness :
    (⟨[0, 0, 0], [0, 0, 0], [0, 0, 0], ⟨"RandomForestClassifier", 1, 3, true⟩,
        [[0, 0, 0], [0, 0, 0], [0, 0, 0]],
        ["scikit", "scikit_quantized", "own_clf_quantized"],
        [0, 1, 0]⟩ : TestDatasetRun).compare_results
        = [(⟨[0, 0, 0], [0, 0, 0], [0, 0, 0], ⟨"RandomForestClassifier", 1, 3, true⟩,
            [[0, 0, 0], [0, 0, 0], [0, 0, 0]],
            ["scikit", "scikit_quantized", "own_clf_quantized"],
            [0, 1, 0]⟩ : TestDatasetRun).test_predicted,
          (⟨[0, 0, 0], [0, 0, 0], [0, 0, 0], ⟨"RandomForestClassifier", 1, 3, true⟩,
            [[0, 0, 0], [0, 0, 0], [0, 0, 0]],
            ["scikit", "scikit_quantized", "own_clf_quantized"],
            [0, 1, 0]⟩ : TestDatasetRun).test_predicted_quantized,
          (⟨[0, 0, 0], [0, 0, 0], [0, 0, 0], ⟨"RandomForestClassifier", 1, 3, true⟩,
            [[0, 0, 0], [0, 0, 0], [0, 0, 0]],
            ["scikit", "scikit_quantized", "own_clf_quantized"],
            [0, 1, 0]⟩ : TestDatasetRun).my_clf_test_predicted_quantized]
      ∧ (⟨[0, 0, 0], [0, 0, 0], [0, 0, 0], ⟨"RandomForestClassifier", 1, 3, true⟩,
          [[0, 0, 0], [0, 0, 0], [0, 0, 0]],
          ["scikit", "scikit_quantized", "own_clf_quantized"],
          [0, 1, 0]⟩ : TestDatasetRun).compare_results.length = 3
      ∧ (∀ p ∈ (⟨[0, 0, 0], [0, 0, 0], [0, 0, 0], ⟨"RandomForestClassifier", 1, 3, true⟩,
          [[0, 0, 0], [0, 0, 0], [0, 0, 0]],
          ["scikit", "scikit_quantized", "own_clf_quantized"],
          [0, 1, 0]⟩ : TestDatasetRun).compare_results,
          p.length = ([[1], [2], [3]] : List (List ℚ)).length)
      ∧ (⟨[0, 0, 0], [0, 0, 0], [0, 0, 0], ⟨"RandomForestClassifier", 1, 3, true⟩,
          [[0, 0, 0], [0, 0, 0], [0, 0, 0]],
          ["scikit", "scikit_quantized", "own_clf_quantized"],
          [0, 1, 0]⟩ : TestDatasetRun).compare_names
          = ["scikit", "scikit_quantized", "own_clf_quantized"]
      ∧ (⟨[0, 0, 0], [0, 0, 0], [0, 0, 0], ⟨"RandomForestClassifier", 1, 3, true⟩,
          [[0, 0, 0], [0, 0, 0], [0, 0, 0]],
          ["scikit", "scikit_quantized", "own_clf_quantized"],
          [0, 1, 0]⟩ : TestDatasetRun).compare_target = [0, 1, 0] :=
  test_dataset_three_variants 2 [[1], [3]] [0, 1] [[1], [2], [3]] [0, 1, 0]
    ClassifierType.RANDOM_FOREST (fun _ _ => fun _ => 0) (fun _ _ => 0)
    ⟨[0, 0, 0], [0, 0, 0], [0, 0, 0], ⟨"RandomForestClassifier", 1, 3, true⟩,
      [[0, 0, 0], [0, 0, 0], [0, 0, 0]],
      ["scikit", "scikit_quantized", "own_clf_quantized"], [0, 1, 0]⟩
    (by with_unfolding_all decide)
